import Mathlib

/-
Verification of the opener-progression engine of the EpiOpener overlay.

The definitions below are a shallow embedding of the TypeScript sources:
  - ActionDetectionService (log-line parsing and ability-id normalization),
  - OpenerService (catalog lookup, progress creation, matching, advancing),
  - the OverlayListener event handlers and the overlay store state,
  - OverlayPluginService (host-availability guarded subscription calls).
JavaScript strings are modelled as Lean strings with ASCII case mapping,
JavaScript `number | null` timestamps as `Option Nat`, and the falsy checks
of the source (`!x`, `x || y`) are translated explicitly at each use site.
-/

/-- Uppercase mapping for a single character, as JavaScript `toUpperCase`
acts on ASCII: codepoints 97..122 are shifted down by 32, all others kept. -/
def asciiUpperChar (c : Char) : Char :=
  if 97 ≤ c.toNat ∧ c.toNat ≤ 122 then Char.ofNat (c.toNat - 32) else c

/-- Embedding of `id.replace(/^0x/i, '')`: remove one leading `0x` or `0X`
marker if present, otherwise keep the character list unchanged. -/
def strip0x : List Char → List Char
  | '0' :: c :: rest => if c = 'x' ∨ c = 'X' then rest else '0' :: c :: rest
  | l => l

/-- Embedding of `padStart(4, '0')` on character lists. -/
def padStart4 (l : List Char) : List Char :=
  List.replicate (4 - l.length) '0' ++ l

/-- Embedding of `normalizeAbilityId` from both ActionDetectionService and
OpenerService: `id.replace(/^0x/i, '').toUpperCase().padStart(4, '0')`. -/
def normalizeAbilityId (s : String) : String :=
  ⟨padStart4 ((strip0x s.data).map asciiUpperChar)⟩

/-- Does a character list begin with a `0x` / `0X` marker? -/
def startsWith0x : List Char → Bool
  | '0' :: c :: _ => c = 'x' ∨ c = 'X'
  | _ => false

/-- Action type, from `opener.types.ts` (`'gcd' | 'ogcd' | 'potion' | 'sprint'`). -/
inductive ActionType where
  | gcd
  | ogcd
  | potion
  | sprint
  deriving DecidableEq

/-- One step of an opener sequence, from `OpenerAction` in `opener.types.ts`. -/
structure OpenerAction where
  id : String
  name : String
  type : ActionType
  position : Nat
  weaveSlot : Option Nat
  actionId : String
  iconId : String
  audioFile : Option String
  delayMs : Option Int
  deriving DecidableEq

/-- An opener definition, from `Opener` in `opener.types.ts`. -/
structure Opener where
  id : String
  job : String
  name : String
  version : String
  zoneId : Option Nat
  encounterName : Option String
  actions : List OpenerAction
  audioEnabled : Bool
  notes : Option String
  source : Option String
  deriving DecidableEq

/-- Per-session progression state, from `OpenerProgress` in `opener.types.ts`.
`startTime : Option Nat` models the TypeScript `number | null`. -/
structure OpenerProgress where
  currentIndex : Nat
  completedActions : List String
  missedActions : List String
  isComplete : Bool
  startTime : Option Nat
  deriving DecidableEq

/-- Embedding of `OpenerService.createProgress`: the canonical initial state,
independent of the opener's content. -/
def createProgress (_opener : Opener) : OpenerProgress :=
  { currentIndex := 0
    completedActions := []
    missedActions := []
    isComplete := false
    startTime := none }

/-- Embedding of `OpenerService.matchesExpectedAction`: look up the action at
`currentIndex` (the `if (!currentAction) return false` guard becomes the
`none` branch) and compare normalized ability ids. -/
def matchesExpectedAction (opener : Opener) (progress : OpenerProgress)
    (abilityId : String) : Bool :=
  match opener.actions[progress.currentIndex]? with
  | none => false
  | some currentAction =>
    normalizeAbilityId abilityId == normalizeAbilityId currentAction.actionId

/-- Embedding of `OpenerService.advanceProgress`. `now` stands for the value
`Date.now()` would return during the call. The source expression
`progress.startTime || Date.now()` is falsy-sensitive: it yields `now`
both when `startTime` is `null` and when it is the number `0`. The source
sets `isComplete` to `true` when the new index reaches the end and otherwise
keeps the old field (object spread). -/
def advanceProgress (opener : Opener) (progress : OpenerProgress)
    (now : Nat) : OpenerProgress :=
  match opener.actions[progress.currentIndex]? with
  | none => progress
  | some currentAction =>
    let newIndex := progress.currentIndex + 1
    { progress with
      currentIndex := newIndex
      completedActions := progress.completedActions ++ [currentAction.id]
      startTime := some (match progress.startTime with
        | none => now
        | some t => if t = 0 then now else t)
      isComplete :=
        if opener.actions.length ≤ newIndex then true else progress.isComplete }

/-- Embedding of `OpenerService.markActionMissed`: append the current action's
id to `missedActions`; no other field changes; no-op when `currentIndex` is
out of range. -/
def markActionMissed (opener : Opener) (progress : OpenerProgress) : OpenerProgress :=
  match opener.actions[progress.currentIndex]? with
  | none => progress
  | some currentAction =>
    { progress with missedActions := progress.missedActions ++ [currentAction.id] }

/-- The opener catalog, modelling the `Map<string, Opener[]>` built by
`loadOpeners` as an association list in insertion order. -/
def Catalog : Type := List (String × List Opener)

/-- Uppercase a string as JavaScript `toUpperCase` does on ASCII input. -/
def strToUpper (s : String) : String :=
  ⟨s.data.map asciiUpperChar⟩

/-- Embedding of `OpenerService.getOpenersForJob`:
`this.openers.get(job.toUpperCase()) || []`. -/
def getOpenersForJob (catalog : Catalog) (job : String) : List Opener :=
  (List.lookup (strToUpper job) catalog).getD []

/-- Embedding of `OpenerService.getOpenerById`: linear search through the
catalog's value lists for the first opener with the given id. -/
def getOpenerById (catalog : Catalog) (openerId : String) : Option Opener :=
  ((catalog.map Prod.snd).flatten).find? (fun o => o.id == openerId)

/-- Embedding of `OpenerService.getDefaultOpenerForJob`:
`openers[0] || null` on the job's list. -/
def getDefaultOpenerForJob (catalog : Catalog) (job : String) : Option Opener :=
  (getOpenersForJob catalog job).head?

/-- A parsed ability-usage event, from `DetectedAction` in the
action-detection service. -/
structure DetectedAction where
  timestamp : String
  sourceId : String
  sourceName : String
  abilityId : String
  abilityName : String
  targetId : Option String
  targetName : Option String
  deriving DecidableEq

/-- The two recognized log-record type codes (`ACTION_LOG_TYPES` in the
action-detection service): type 21 NetworkAbility, type 22 NetworkAOEAbility. -/
def actionLogTypeCodes : List String := ["21", "22"]

/-- Embedding of `ActionDetectionService.parseLogLine`. A log line is a list
of string fields. Rejection (fewer than 6 fields, or a first field that is
empty or not a recognized type code) is the `none` return value. The
`line[i] || ''` accesses on fields 1..5 become `getD i ""`; the bare
`line[6]` / `line[7]` accesses on the optional target fields become `get?`. -/
def parseLogLine (line : List String) : Option DetectedAction :=
  if line.length < 6 then none
  else
    let logType := line.getD 0 ""
    if logType = "" ∨ logType ∉ actionLogTypeCodes then none
    else some
      { timestamp := line.getD 1 ""
        sourceId := line.getD 2 ""
        sourceName := line.getD 3 ""
        abilityId := normalizeAbilityId (line.getD 4 "")
        abilityName := line.getD 5 ""
        targetId := line.get? 6
        targetName := line.get? 7 }

/-- One combatant entry of a `getCombatants` response; only the `Job` code
field is read by the listener. -/
structure Combatant where
  Job : Nat
  Name : String
  deriving DecidableEq

/-- The slice of the overlay store (`overlayStore.ts`) that the zone-change
path reads and writes. -/
structure StoreState where
  playerName : Option String
  playerJob : Option String
  currentZone : Option String
  currentZoneId : Option Nat
  currentOpener : Option Opener
  openerProgress : Option OpenerProgress
  deriving DecidableEq

/-- Embedding of the store action `setZone`: the source publishes
`zoneName || Zone-number` — an empty or missing name falls back to a
generated label. -/
def setZone (zoneId : Nat) (zoneName : Option String) (st : StoreState) : StoreState :=
  { st with
    currentZoneId := some zoneId
    currentZone := some (match zoneName with
      | none => "Zone " ++ toString zoneId
      | some n => if n = "" then "Zone " ++ toString zoneId else n) }

/-- Embedding of the state update performed by `fetchPlayerJob` in
`OverlayListener.tsx` once the `getCombatants` response arrives.
`response` is `none` when the host call failed or returned `null`;
`getJobName` stands for the job-code table in the (unshipped) `lib/jobs`
module and is universally quantified in the theorems. When a first combatant
exists, the job is always published, and when a default opener for that job
exists the active opener and its progress are unconditionally replaced —
the source performs no comparison with the currently active opener. -/
def fetchPlayerJob (catalog : Catalog) (getJobName : Nat → String)
    (response : Option (List Combatant)) (st : StoreState) : StoreState :=
  match response with
  | none => st
  | some combatants =>
    match combatants.head? with
    | none => st
    | some player =>
      let jobName := getJobName player.Job
      let st1 := { st with playerJob := some jobName }
      match getDefaultOpenerForJob catalog jobName with
      | none => st1
      | some opener =>
        { st1 with
          currentOpener := some opener
          openerProgress := some (createProgress opener) }

/-- Embedding of `handleZoneChange` in `OverlayListener.tsx`: publish the new
zone, then re-run player/job resolution via `fetchPlayerJob`. -/
def handleZoneChange (catalog : Catalog) (getJobName : Nat → String)
    (zoneId : Nat) (zoneName : Option String)
    (response : Option (List Combatant)) (st : StoreState) : StoreState :=
  fetchPlayerJob catalog getJobName response (setZone zoneId zoneName st)

/-- The observable state of `OverlayPluginService`: the availability flag set
by `checkAvailability`, and the listener map (`Map<string, Set<callback>>`),
with callbacks modelled as opaque numeric identifiers. -/
structure OverlayPluginState where
  isAvailable : Bool
  listeners : List (String × List Nat)
  deriving DecidableEq

/-- Insert a callback into the listener map, modelling
`if (!has(e)) set(e, new Set()); get(e)?.add(cb)`. -/
def addCallback : List (String × List Nat) → String → Nat → List (String × List Nat)
  | [], eventType, cb => [(eventType, [cb])]
  | (e0, cbs) :: rest, eventType, cb =>
    if e0 = eventType then
      (e0, if cb ∈ cbs then cbs else cbs ++ [cb]) :: rest
    else
      (e0, cbs) :: addCallback rest eventType cb

/-- Embedding of `OverlayPluginService.addEventListener`. The second
component records the host registration performed
(`window.addOverlayListener(eventType, callback)`), `none` when the call
degraded to a warn-and-return no-op because the plugin is unavailable. -/
def addEventListener (st : OverlayPluginState) (eventType : String) (cb : Nat) :
    OverlayPluginState × Option (String × Nat) :=
  if st.isAvailable = false then (st, none)
  else
    ({ st with listeners := addCallback st.listeners eventType cb },
     some (eventType, cb))

/-- Embedding of `OverlayPluginService.startEvents`: returns the host call
performed, `none` when unavailable or when the host lacks
`startOverlayEvents`. -/
def startEvents (st : OverlayPluginState) (hostHasStart : Bool) : Option Unit :=
  if st.isAvailable = false ∨ hostHasStart = false then none else some ()

/-- Embedding of `OverlayPluginService.callHandler`. `host` is the optional
`window.callOverlayHandler` function, which may itself fail (the `catch`
branch); every failure path produces `none` rather than propagating. -/
def callHandler {α : Type} (st : OverlayPluginState)
    (host : Option (String → Except String α)) (call : String) : Option α :=
  if st.isAvailable = false then none
  else
    match host with
    | none => none
    | some h =>
      match h call with
      | Except.error _ => none
      | Except.ok v => some v

/-- Progress states reachable from the canonical initial state of an opener
by any interleaving of `advanceProgress` (at any clock value) and
`markActionMissed`. -/
inductive ReachableProgress (opener : Opener) : OpenerProgress → Prop where
  | init : ReachableProgress opener (createProgress opener)
  | adv {p : OpenerProgress} (now : Nat) :
      ReachableProgress opener p →
      ReachableProgress opener (advanceProgress opener p now)
  | miss {p : OpenerProgress} :
      ReachableProgress opener p →
      ReachableProgress opener (markActionMissed opener p)

/-- The invariant relating a progress state to its opener: completed ids are
exactly the ids of the first `currentIndex` actions, the cursor stays in
bounds, and the completion flag mirrors cursor-at-end. -/
def progressInvariant (opener : Opener) (p : OpenerProgress) : Prop :=
  p.completedActions = (opener.actions.take p.currentIndex).map (fun a => a.id)
  ∧ p.currentIndex ≤ opener.actions.length
  ∧ (p.isComplete = true ↔ p.currentIndex = opener.actions.length)

/-- Hex digit (either case), matching the ability-id wire format. -/
def isHexCharB (c : Char) : Bool :=
  (48 ≤ c.toNat ∧ c.toNat ≤ 57) ∨ (65 ≤ c.toNat ∧ c.toNat ≤ 70)
    ∨ (97 ≤ c.toNat ∧ c.toNat ≤ 102)

/-- Uppercase hex digit. -/
def isUpperHexCharB (c : Char) : Bool :=
  (48 ≤ c.toNat ∧ c.toNat ≤ 57) ∨ (65 ≤ c.toNat ∧ c.toNat ≤ 70)

/-- Concrete sample action: WAR Tomahawk, with its six-digit ability id. -/
def tomahawkAction : OpenerAction :=
  { id := "tomahawk"
    name := "Tomahawk"
    type := ActionType.gcd
    position := 1
    weaveSlot := none
    actionId := "0002E6"
    iconId := "000261"
    audioFile := none
    delayMs := some (-700) }

/-- Concrete sample action: WAR Infuriate, an oGCD weave. -/
def infuriateAction : OpenerAction :=
  { id := "infuriate"
    name := "Infuriate"
    type := ActionType.ogcd
    position := 1
    weaveSlot := some 1
    actionId := "34"
    iconId := "002555"
    audioFile := none
    delayMs := none }

/-- Concrete two-step sample opener for the WAR job. -/
def warOpener : Opener :=
  { id := "war-standard-dt-71"
    job := "WAR"
    name := "WAR Standard Opener"
    version := "7.1"
    zoneId := none
    encounterName := none
    actions := [tomahawkAction, infuriateAction]
    audioEnabled := true
    notes := none
    source := none }

/-- Concrete one-job catalog holding the sample opener. -/
def sampleCatalog : Catalog := [("WAR", [warOpener])]

/-- A progress record whose completion flag is raised while the cursor is
still in range: not reachable by the service operations, but representable
in the `OpenerProgress` shape. -/
def completeButIndexZero : OpenerProgress :=
  { currentIndex := 0
    completedActions := []
    missedActions := []
    isComplete := true
    startTime := some 5 }

/-- A progress record with `startTime` equal to the number 0. -/
def zeroStartProgress : OpenerProgress :=
  { currentIndex := 0
    completedActions := []
    missedActions := []
    isComplete := false
    startTime := some 0 }

/-- The completed end state of the two-step sample opener. -/
def completeEndProgress : OpenerProgress :=
  { currentIndex := 2
    completedActions := ["tomahawk", "infuriate"]
    missedActions := []
    isComplete := true
    startTime := some 7 }

/-- A mid-run progress state of the two-step sample opener. -/
def midRunProgress : OpenerProgress :=
  { currentIndex := 1
    completedActions := ["tomahawk"]
    missedActions := []
    isComplete := false
    startTime := some 7 }

/-- A store state in which the sample opener is active and mid-run. -/
def activeMidRunState : StoreState :=
  { playerName := some "Foo Bar"
    playerJob := some "WAR"
    currentZone := none
    currentZoneId := none
    currentOpener := some warOpener
    openerProgress := some midRunProgress }

/-- The plugin state of a standalone run: host API absent, no listeners. -/
def unavailableService : OverlayPluginState :=
  { isAvailable := false, listeners := [] }

theorem toNat_ofNat_of_lt (n : Nat) (h : n < 55296) : (Char.ofNat n).toNat = n := by
  have hv : n.isValidChar := Or.inl h
  rw [Char.ofNat, dif_pos hv]
  simp [Char.ofNatAux, Char.toNat, UInt32.toNat, BitVec.toNat_ofNatLt]

theorem asciiUpperChar_idem (c : Char) :
    asciiUpperChar (asciiUpperChar c) = asciiUpperChar c := by
  unfold asciiUpperChar
  by_cases h : 97 ≤ c.toNat ∧ c.toNat ≤ 122
  · rw [if_pos h]
    have ht : (Char.ofNat (c.toNat - 32)).toNat = c.toNat - 32 :=
      toNat_ofNat_of_lt _ (by omega)
    rw [if_neg (by omega)]
  · rw [if_neg h, if_neg h]

theorem map_asciiUpperChar_idem (l : List Char) :
    (l.map asciiUpperChar).map asciiUpperChar = l.map asciiUpperChar := by
  induction l with
  | nil => rfl
  | cons c rest ih => simp [asciiUpperChar_idem, ih]

theorem padStart4_length (l : List Char) : (padStart4 l).length = max 4 l.length := by
  simp [padStart4]
  omega

theorem padStart4_eq_of_le (l : List Char) (h : 4 ≤ l.length) : padStart4 l = l := by
  unfold padStart4
  rw [Nat.sub_eq_zero_of_le h]
  rfl

theorem map_asciiUpperChar_padStart4 (l : List Char) :
    (padStart4 l).map asciiUpperChar = padStart4 (l.map asciiUpperChar) := by
  unfold padStart4
  have h0 : asciiUpperChar '0' = '0' := by decide
  simp [List.map_replicate, h0]

theorem strip0x_eq_of_not_marker (l : List Char) (h : startsWith0x l = false) :
    strip0x l = l := by
  match l with
  | [] => rfl
  | [c] =>
    unfold strip0x
    split
    · rename_i heq
      cases heq
    · rfl
  | c0 :: c1 :: rest =>
    unfold startsWith0x at h
    unfold strip0x
    split
    · rename_i heq
      injection heq with h0 h1
      subst h0
      injection h1 with h1 h2
      subst h1
      subst h2
      simp only [decide_eq_false_iff_not] at h
      rw [if_neg h]
    · rfl

theorem normalizeAbilityId_length (s : String) :
    4 ≤ (normalizeAbilityId s).length := by
  show 4 ≤ (normalizeAbilityId s).data.length
  unfold normalizeAbilityId
  simp [padStart4_length]

theorem normalizeAbilityId_upper_fixed (s : String) :
    (normalizeAbilityId s).data.map asciiUpperChar = (normalizeAbilityId s).data := by
  unfold normalizeAbilityId
  simp only
  rw [map_asciiUpperChar_padStart4, map_asciiUpperChar_idem]

/-- Claim C4, counterexample: normalization is not idempotent on every
string. On input "xAB" the first pass produces "0XAB" (pad then uppercase
gives the string a fresh `0X` marker), and a second pass strips that marker
and yields "00AB". -/
theorem normalizeAbilityId_idem_cex :
    normalizeAbilityId (normalizeAbilityId "xAB") ≠ normalizeAbilityId "xAB" := by
  decide

/-- Claim C4 (amended): normalization is total, maps the empty string to
"0000", and is idempotent on every string whose normalized form does not
itself begin with a `0x`/`0X` marker — in particular on every hex-digit
ability id, with or without a `0x`/`0X` marker. -/
theorem normalizeAbilityId_idem (s : String) :
    (startsWith0x (normalizeAbilityId s).data = false →
      normalizeAbilityId (normalizeAbilityId s) = normalizeAbilityId s)
    ∧ normalizeAbilityId "" = "0000" := by
  constructor
  · intro h
    have hu := normalizeAbilityId_upper_fixed s
    have hl : 4 ≤ (normalizeAbilityId s).data.length := normalizeAbilityId_length s
    set t := normalizeAbilityId s with ht
    unfold normalizeAbilityId
    rw [strip0x_eq_of_not_marker t.data h, hu, padStart4_eq_of_le t.data hl]
  · decide

/-- Claim C4, witness for the amended idempotence at a marked hex id. -/
theorem normalizeAbilityId_idem_witness :
    normalizeAbilityId (normalizeAbilityId "0x1D") = normalizeAbilityId "0x1D" :=
  (normalizeAbilityId_idem "0x1D").1 (by decide)

/-- Claim C1, counterexample: `matchesExpectedAction` never inspects
`isComplete`. A progress record with the flag raised but the cursor still in
range (not producible by the service itself, but a value of the progress
type) matches the expected action, contradicting "always false for any
progress with isComplete true". -/
theorem matchesExpectedAction_complete_cex :
    completeButIndexZero.isComplete = true ∧
    matchesExpectedAction warOpener completeButIndexZero "0002E6" = true := by
  decide

/-- Claim C1 (amended): `matchesExpectedAction opener progress abilityId`
returns true iff `currentIndex` addresses an action of the opener (that is,
`currentIndex < actions.length`) whose normalized `actionId` equals the
normalized input; and for every progress satisfying the derived-completeness
invariant (`isComplete` implies the cursor is past the end), it is false
whenever `isComplete` is true. -/
theorem matchesExpectedAction_iff (opener : Opener) (p : OpenerProgress)
    (abilityId : String) :
    (matchesExpectedAction opener p abilityId = true ↔
      ∃ act, opener.actions[p.currentIndex]? = some act ∧
        normalizeAbilityId abilityId = normalizeAbilityId act.actionId)
    ∧ ((p.isComplete = true → opener.actions.length ≤ p.currentIndex) →
        p.isComplete = true → matchesExpectedAction opener p abilityId = false) := by
  constructor
  · unfold matchesExpectedAction
    cases hg : opener.actions[p.currentIndex]? with
    | none => simp [hg]
    | some act => simp [hg]
  · intro hinv hc
    unfold matchesExpectedAction
    rw [List.getElem?_eq_none (hinv hc)]

/-- Claim C1, witness: the amended theorem at the sample opener, both for a
fresh matching progress and for the completed end state. -/
theorem matchesExpectedAction_iff_witness :
    matchesExpectedAction warOpener (createProgress warOpener) "0002E6" = true ∧
    matchesExpectedAction warOpener completeEndProgress "0002E6" = false := by
  constructor
  · exact (matchesExpectedAction_iff warOpener (createProgress warOpener) "0002E6").1.mpr
      ⟨tomahawkAction, by decide, by decide⟩
  · exact (matchesExpectedAction_iff warOpener completeEndProgress "0002E6").2
      (fun _ => by decide) (by decide)

/-- Claim C2, counterexample: `advanceProgress` checks only whether
`currentIndex` addresses an action, not the `isComplete` flag, so it does
advance a progress whose flag is raised early; and the falsy-sensitive
`startTime || Date.now()` overwrites a `startTime` that was set to the
number 0. -/
theorem advanceProgress_claim_cex :
    completeButIndexZero.isComplete = true ∧
    advanceProgress warOpener completeButIndexZero 99 ≠ completeButIndexZero ∧
    zeroStartProgress.startTime = some 0 ∧
    (advanceProgress warOpener zeroStartProgress 99).startTime = some 99 := by
  decide

/-- Claim C2 (amended): when `currentIndex` addresses an action,
`advanceProgress` increments `currentIndex` by exactly 1 and appends that
action's id to `completedActions` (growing it by exactly 1), regardless of
the `isComplete` flag; it returns the progress unchanged exactly when
`currentIndex` is out of range (which, for invariant-satisfying progress,
covers the completed case); and it sets `startTime` to the current time when
`startTime` was previously null or the number 0, leaving any nonzero
`startTime` untouched. -/
theorem advanceProgress_spec (opener : Opener) (p : OpenerProgress) (now : Nat) :
    (∀ act, opener.actions[p.currentIndex]? = some act →
      (advanceProgress opener p now).currentIndex = p.currentIndex + 1
      ∧ (advanceProgress opener p now).completedActions = p.completedActions ++ [act.id]
      ∧ (advanceProgress opener p now).completedActions.length
          = p.completedActions.length + 1
      ∧ ((p.startTime = none ∨ p.startTime = some 0) →
          (advanceProgress opener p now).startTime = some now)
      ∧ (∀ t, p.startTime = some t → t ≠ 0 →
          (advanceProgress opener p now).startTime = some t))
    ∧ (opener.actions.length ≤ p.currentIndex → advanceProgress opener p now = p) := by
  constructor
  · intro act hg
    unfold advanceProgress
    rw [hg]
    refine ⟨rfl, rfl, by simp, ?_, ?_⟩
    · rintro (h | h)
      · rw [h]
      · rw [h]
        rfl
    · intro t ht hne
      rw [ht]
      simp [hne]
  · intro h
    unfold advanceProgress
    rw [List.getElem?_eq_none h]

/-- Claim C2, witness: the amended theorem at the sample opener, for a fresh
advance and for the completed end state. -/
theorem advanceProgress_spec_witness :
    (advanceProgress warOpener (createProgress warOpener) 10).currentIndex = 1
    ∧ (advanceProgress warOpener (createProgress warOpener) 10).startTime = some 10
    ∧ advanceProgress warOpener completeEndProgress 10 = completeEndProgress := by
  refine ⟨?_, ?_, ?_⟩
  · exact ((advanceProgress_spec warOpener (createProgress warOpener) 10).1
      tomahawkAction (by decide)).1
  · exact ((advanceProgress_spec warOpener (createProgress warOpener) 10).1
      tomahawkAction (by decide)).2.2.2.1 (Or.inl rfl)
  · exact (advanceProgress_spec warOpener completeEndProgress 10).2 (by decide)

/-- Claim C10: matching compares zero-padded strings, not numeric hex
values. Padding only ever lengthens an id to 4 characters, so whenever the
normalized detected id is strictly shorter than the normalized expected id
(as with "2E6" vs a six-character "0002E6"), the two strings differ and
`matchesExpectedAction` returns false. -/
theorem matchesExpectedAction_padding_sensitive (opener : Opener)
    (p : OpenerProgress) (detected : String) (act : OpenerAction)
    (hg : opener.actions[p.currentIndex]? = some act)
    (hl : (normalizeAbilityId detected).length
      < (normalizeAbilityId act.actionId).length) :
    matchesExpectedAction opener p detected = false := by
  unfold matchesExpectedAction
  rw [hg]
  simp only [beq_eq_false_iff_ne, ne_eq]
  intro heq
  rw [heq] at hl
  exact Nat.lt_irrefl _ hl

/-- Claim C10, witness: the six-digit Tomahawk id "0002E6" is not matched
by the shorter spelling "2E6" of the same hex number, which normalizes to
"02E6". -/
theorem matchesExpectedAction_padding_sensitive_witness :
    matchesExpectedAction warOpener (createProgress warOpener) "2E6" = false ∧
    normalizeAbilityId "2E6" = "02E6" ∧
    normalizeAbilityId "0002E6" = "0002E6" := by
  refine ⟨?_, by decide, by decide⟩
  exact matchesExpectedAction_padding_sensitive warOpener (createProgress warOpener)
    "2E6" tomahawkAction (by decide) (by decide)

theorem progressInvariant_create (opener : Opener) (hne : opener.actions ≠ []) :
    progressInvariant opener (createProgress opener) := by
  refine ⟨rfl, Nat.zero_le _, ?_⟩
  constructor
  · intro h
    exact Bool.noConfusion h
  · intro h
    exact absurd (List.eq_nil_of_length_eq_zero h.symm) hne

theorem progressInvariant_advance (opener : Opener) (p : OpenerProgress) (now : Nat)
    (h : progressInvariant opener p) :
    progressInvariant opener (advanceProgress opener p now) := by
  obtain ⟨hcomp, hle, hflag⟩ := h
  unfold advanceProgress
  cases hg : opener.actions[p.currentIndex]? with
  | none => exact ⟨hcomp, hle, hflag⟩
  | some act =>
    have hlt : p.currentIndex < opener.actions.length := by
      by_contra hnl
      rw [List.getElem?_eq_none (Nat.le_of_not_lt hnl)] at hg
      cases hg
    refine ⟨?_, ?_, ?_⟩
    · show p.completedActions ++ [act.id]
        = ((opener.actions.take (p.currentIndex + 1)).map (fun a => a.id))
      rw [hcomp, List.take_succ, hg]
      simp
    · show p.currentIndex + 1 ≤ opener.actions.length
      omega
    · show (if opener.actions.length ≤ p.currentIndex + 1 then true else p.isComplete)
        = true ↔ p.currentIndex + 1 = opener.actions.length
      by_cases hc : opener.actions.length ≤ p.currentIndex + 1
      · rw [if_pos hc]
        constructor
        · intro _
          omega
        · intro _
          rfl
      · rw [if_neg hc, hflag]
        omega

theorem progressInvariant_missed (opener : Opener) (p : OpenerProgress)
    (h : progressInvariant opener p) :
    progressInvariant opener (markActionMissed opener p) := by
  unfold markActionMissed
  cases hg : opener.actions[p.currentIndex]? with
  | none => exact h
  | some act => exact h

/-- Claim C3: for a non-empty opener, every progress state reachable from
`createProgress` by `advanceProgress` and `markActionMissed` keeps
`completedActions` a prefix of the opener's action ids in sequence order,
of length `currentIndex`, keeps the cursor within `0..actions.length`, and
keeps `isComplete` true exactly when the cursor is at the end. -/
theorem progress_invariant_reachable (opener : Opener) (p : OpenerProgress)
    (hne : opener.actions ≠ []) (hr : ReachableProgress opener p) :
    p.completedActions <+: opener.actions.map (fun a => a.id)
    ∧ p.completedActions.length = p.currentIndex
    ∧ p.currentIndex ≤ opener.actions.length
    ∧ (p.isComplete = true ↔ p.currentIndex = opener.actions.length) := by
  have hinv : progressInvariant opener p := by
    induction hr with
    | init => exact progressInvariant_create opener hne
    | adv now _ ih => exact progressInvariant_advance opener _ now ih
    | miss _ ih => exact progressInvariant_missed opener _ ih
  obtain ⟨hcomp, hle, hflag⟩ := hinv
  refine ⟨?_, ?_, hle, hflag⟩
  · rw [hcomp, List.map_take]
    exact ⟨(opener.actions.map (fun a => a.id)).drop p.currentIndex,
      List.take_append_drop _ _⟩
  · rw [hcomp]
    simp [List.length_take]
    omega

/-- Claim C3, witness: the invariant at the state reached by one advance
from the fresh state of the sample opener. -/
theorem progress_invariant_reachable_witness :
    (advanceProgress warOpener (createProgress warOpener) 7).completedActions <+:
      warOpener.actions.map (fun a => a.id)
    ∧ (advanceProgress warOpener (createProgress warOpener) 7).completedActions.length
        = (advanceProgress warOpener (createProgress warOpener) 7).currentIndex
    ∧ (advanceProgress warOpener (createProgress warOpener) 7).currentIndex
        ≤ warOpener.actions.length
    ∧ ((advanceProgress warOpener (createProgress warOpener) 7).isComplete = true ↔
        (advanceProgress warOpener (createProgress warOpener) 7).currentIndex
          = warOpener.actions.length) :=
  progress_invariant_reachable warOpener _ (by decide)
    (ReachableProgress.adv 7 ReachableProgress.init)

theorem asciiUpperChar_hex (c : Char) (h : isHexCharB c = true) :
    isUpperHexCharB (asciiUpperChar c) = true := by
  unfold isHexCharB at h
  unfold asciiUpperChar isUpperHexCharB
  simp only [decide_eq_true_eq] at h
  by_cases hl : 97 ≤ c.toNat ∧ c.toNat ≤ 122
  · rw [if_pos hl]
    have ht : (Char.ofNat (c.toNat - 32)).toNat = c.toNat - 32 :=
      toNat_ofNat_of_lt _ (by omega)
    simp only [decide_eq_true_eq, ht]
    omega
  · rw [if_neg hl]
    simp only [decide_eq_true_eq]
    omega

theorem startsWith0x_eq_false_of_upperHex (l : List Char)
    (h : l.all isUpperHexCharB = true) : startsWith0x l = false := by
  match l with
  | [] => rfl
  | [c] =>
    unfold startsWith0x
    split
    · rename_i heq
      cases heq
    · rfl
  | c0 :: c1 :: rest =>
    simp only [List.all_cons, Bool.and_eq_true] at h
    obtain ⟨h0, h1, -⟩ := h
    unfold startsWith0x
    split
    · rename_i heq
      injection heq with e0 etail
      injection etail with e1 erest
      subst e1
      simp only [decide_eq_false_iff_not]
      rintro (rfl | rfl)
      · exact absurd h1 (by decide)
      · exact absurd h1 (by decide)
    · rfl

theorem normalizeAbilityId_upperHex (s : String)
    (h : (strip0x s.data).all isHexCharB = true) :
    (normalizeAbilityId s).data.all isUpperHexCharB = true := by
  unfold normalizeAbilityId padStart4
  rw [List.all_eq_true]
  intro c hc
  rcases List.mem_append.1 hc with hrep | hmap
  · rw [List.eq_of_mem_replicate hrep]
    decide
  · obtain ⟨d, hd, rfl⟩ := List.mem_map.1 hmap
    rw [List.all_eq_true] at h
    exact asciiUpperChar_hex d (h d hd)

/-- Claim C5, counterexample: `parseLogLine` normalizes whatever the
ability-id field holds; on the non-hex field "zz" it returns a
`DetectedAction` whose `abilityId` "00ZZ" is not an uppercase hex string. -/
theorem parseLogLine_hex_cex :
    (parseLogLine ["21", "t", "s", "Name", "zz", "Slash"]).map
      (fun act => act.abilityId) = some "00ZZ"
    ∧ "00ZZ".data.all isUpperHexCharB = false := by
  decide

/-- Claim C5 (amended): for every log-line token list with at least 6
fields, a recognized type code in field 0, and an ability-id field that is
a hex-digit string after removal of its optional `0x`/`0X` marker,
`parseLogLine` returns a `DetectedAction` whose `abilityId` consists of
uppercase hex digits, carries no `0x`/`0X` marker, and is at least 4
characters long. (Without the hex-field hypothesis only the length and
case guarantees survive, as the counterexample shows.) -/
theorem parseLogLine_abilityId_format (line : List String)
    (h6 : ¬ line.length < 6) (htype : line.getD 0 "" ∈ actionLogTypeCodes)
    (hhex : (strip0x (line.getD 4 "").data).all isHexCharB = true) :
    ∃ act, parseLogLine line = some act
      ∧ act.abilityId.data.all isUpperHexCharB = true
      ∧ startsWith0x act.abilityId.data = false
      ∧ 4 ≤ act.abilityId.length := by
  have hne : ¬ (line.getD 0 "" = "" ∨ line.getD 0 "" ∉ actionLogTypeCodes) := by
    rintro (h | h)
    · rw [h] at htype
      exact absurd htype (by decide)
    · exact h htype
  have hsome : parseLogLine line = some
      { timestamp := line.getD 1 ""
        sourceId := line.getD 2 ""
        sourceName := line.getD 3 ""
        abilityId := normalizeAbilityId (line.getD 4 "")
        abilityName := line.getD 5 ""
        targetId := line.get? 6
        targetName := line.get? 7 } := by
    unfold parseLogLine
    rw [if_neg h6, if_neg hne]
  exact ⟨_, hsome, normalizeAbilityId_upperHex _ hhex,
    startsWith0x_eq_false_of_upperHex _ (normalizeAbilityId_upperHex _ hhex),
    normalizeAbilityId_length _⟩

/-- Claim C5, witness: the amended theorem at a marked hex ability line. -/
theorem parseLogLine_abilityId_format_witness :
    ∃ act, parseLogLine ["21", "t", "s", "Name", "0x2e6", "Tomahawk"] = some act
      ∧ act.abilityId.data.all isUpperHexCharB = true
      ∧ startsWith0x act.abilityId.data = false
      ∧ 4 ≤ act.abilityId.length :=
  parseLogLine_abilityId_format ["21", "t", "s", "Name", "0x2e6", "Tomahawk"]
    (by decide) (by decide) (by decide)

/-- Claim C6: `parseLogLine` returns `none` exactly when the token list has
fewer than 6 fields or its first field is not one of the two recognized
ability type codes; rejection is the ordinary `none` value of a total
function — the embedding has no failure effect at all. -/
theorem parseLogLine_none_iff (line : List String) :
    parseLogLine line = none ↔
      line.length < 6 ∨ line.getD 0 "" ∉ actionLogTypeCodes := by
  unfold parseLogLine
  by_cases h6 : line.length < 6
  · simp [h6]
  · rw [if_neg h6]
    by_cases hg : line.getD 0 "" = "" ∨ line.getD 0 "" ∉ actionLogTypeCodes
    · rw [if_pos hg]
      simp only [true_iff]
      rcases hg with h | h
      · right
        rw [h]
        decide
      · exact Or.inr h
    · rw [if_neg hg]
      push_neg at hg
      apply iff_of_false
      · intro hcontr
        cases hcontr
      · rintro (h | h)
        · exact h6 h
        · exact h hg.2

/-- Claim C7, counterexample: on a zone change the listener re-resolves the
job and, whenever a default opener exists, replaces the progress with a
fresh `createProgress` state without comparing the resolved opener to the
active one. Here the resolved default opener *is* the active opener, yet
the mid-run progress is discarded. -/
theorem handleZoneChange_reset_cex :
    getDefaultOpenerForJob sampleCatalog "WAR" = some warOpener
    ∧ activeMidRunState.currentOpener = some warOpener
    ∧ (handleZoneChange sampleCatalog (fun _ => "WAR") 309 (some "Raid")
        (some [{ Job := 21, Name := "Foo Bar" }]) activeMidRunState).openerProgress
      ≠ activeMidRunState.openerProgress := by
  decide

/-- Claim C7 (amended): when a zone-change event triggers player/job
resolution and a first roster entry with a resolvable default opener
exists, the active opener and its progress are unconditionally replaced by
that opener and a fresh `createProgress` state — also when the resolved
opener is the one already active; opener and progress are left unchanged
only when the roster fetch fails, the roster is empty, or the resolved job
has no default opener. -/
theorem handleZoneChange_spec (catalog : Catalog) (getJobName : Nat → String)
    (zoneId : Nat) (zoneName : Option String)
    (response : Option (List Combatant)) (st : StoreState) :
    (∀ combatants player opener, response = some combatants →
      combatants.head? = some player →
      getDefaultOpenerForJob catalog (getJobName player.Job) = some opener →
      (handleZoneChange catalog getJobName zoneId zoneName response st).currentOpener
        = some opener
      ∧ (handleZoneChange catalog getJobName zoneId zoneName response st).openerProgress
        = some (createProgress opener))
    ∧ (response = none →
      (handleZoneChange catalog getJobName zoneId zoneName response st).currentOpener
        = st.currentOpener
      ∧ (handleZoneChange catalog getJobName zoneId zoneName response st).openerProgress
        = st.openerProgress)
    ∧ (∀ combatants, response = some combatants → combatants.head? = none →
      (handleZoneChange catalog getJobName zoneId zoneName response st).currentOpener
        = st.currentOpener
      ∧ (handleZoneChange catalog getJobName zoneId zoneName response st).openerProgress
        = st.openerProgress)
    ∧ (∀ combatants player, response = some combatants →
      combatants.head? = some player →
      getDefaultOpenerForJob catalog (getJobName player.Job) = none →
      (handleZoneChange catalog getJobName zoneId zoneName response st).currentOpener
        = st.currentOpener
      ∧ (handleZoneChange catalog getJobName zoneId zoneName response st).openerProgress
        = st.openerProgress) := by
  refine ⟨?_, ?_, ?_, ?_⟩
  · intro combatants player opener hresp hhead hdef
    unfold handleZoneChange fetchPlayerJob
    rw [hresp]
    simp only [hhead, hdef]
    trivial
  · intro hresp
    unfold handleZoneChange fetchPlayerJob
    rw [hresp]
    exact ⟨rfl, rfl⟩
  · intro combatants hresp hhead
    unfold handleZoneChange fetchPlayerJob
    rw [hresp]
    simp only [hhead]
    exact ⟨rfl, rfl⟩
  · intro combatants player hresp hhead hdef
    unfold handleZoneChange fetchPlayerJob
    rw [hresp]
    simp only [hhead, hdef]
    exact ⟨rfl, rfl⟩

/-- Claim C7, witness: the amended theorem at the sample catalog and the
mid-run store state. -/
theorem handleZoneChange_spec_witness :
    (handleZoneChange sampleCatalog (fun _ => "WAR") 309 (some "Raid")
        (some [{ Job := 21, Name := "Foo Bar" }]) activeMidRunState).currentOpener
      = some warOpener
    ∧ (handleZoneChange sampleCatalog (fun _ => "WAR") 309 (some "Raid")
        (some [{ Job := 21, Name := "Foo Bar" }]) activeMidRunState).openerProgress
      = some (createProgress warOpener) :=
  (handleZoneChange_spec sampleCatalog (fun _ => "WAR") 309 (some "Raid")
      (some [{ Job := 21, Name := "Foo Bar" }]) activeMidRunState).1
    [{ Job := 21, Name := "Foo Bar" }] { Job := 21, Name := "Foo Bar" } warOpener
    rfl rfl (by decide)

/-- Claim C8: job lookup uppercases the requested job code before consulting
the catalog map, so any two spellings of a job code that agree up to ASCII
case yield the same result; in particular `getOpenersForJob` on "war" and
on "WAR" return identical results for every catalog. -/
theorem getOpenersForJob_case_insensitive (catalog : Catalog) (j1 j2 : String) :
    (strToUpper j1 = strToUpper j2 →
      getOpenersForJob catalog j1 = getOpenersForJob catalog j2)
    ∧ getOpenersForJob catalog "war" = getOpenersForJob catalog "WAR" := by
  constructor
  · intro h
    unfold getOpenersForJob
    rw [h]
  · unfold getOpenersForJob
    have h : strToUpper "war" = strToUpper "WAR" := by decide
    rw [h]

/-- Claim C8, witness: mixed-case spellings at the sample catalog. -/
theorem getOpenersForJob_case_insensitive_witness :
    getOpenersForJob sampleCatalog "War" = getOpenersForJob sampleCatalog "wAr"
    ∧ getOpenersForJob sampleCatalog "war" = getOpenersForJob sampleCatalog "WAR" :=
  ⟨(getOpenersForJob_case_insensitive sampleCatalog "War" "wAr").1 (by decide),
   (getOpenersForJob_case_insensitive sampleCatalog "war" "WAR").2⟩

/-- Claim C9: with the host overlay API unavailable, `addEventListener`
leaves the service state untouched and performs no host registration,
`startEvents` performs no host call, and `callHandler` returns `none`;
`callHandler` also returns `none` when the handler is missing or itself
fails; and a catalog miss yields `[]` from `getOpenersForJob` and `none`
from `getOpenerById` — every failure path is a value, never an exception. -/
theorem host_unavailable_catalog_miss_safe {α : Type} (st : OverlayPluginState)
    (eventType : String) (cb : Nat) (hostHasStart : Bool)
    (host : Option (String → Except String α)) (call : String)
    (catalog : Catalog) (job openerId : String) :
    (st.isAvailable = false →
      addEventListener st eventType cb = (st, none)
      ∧ startEvents st hostHasStart = none
      ∧ callHandler st host call = none)
    ∧ callHandler st (none : Option (String → Except String α)) call = none
    ∧ (∀ h e, host = some h → h call = Except.error e →
        callHandler st host call = none)
    ∧ (List.lookup (strToUpper job) catalog = none →
        getOpenersForJob catalog job = [])
    ∧ ((∀ o ∈ (catalog.map Prod.snd).flatten, o.id ≠ openerId) →
        getOpenerById catalog openerId = none) := by
  refine ⟨?_, ?_, ?_, ?_, ?_⟩
  · intro hna
    refine ⟨?_, ?_, ?_⟩
    · unfold addEventListener
      rw [if_pos hna]
    · unfold startEvents
      rw [if_pos (Or.inl hna)]
    · unfold callHandler
      rw [if_pos hna]
  · unfold callHandler
    by_cases hna : st.isAvailable = false
    · rw [if_pos hna]
    · rw [if_neg hna]
  · intro h e hh he
    unfold callHandler
    rw [hh]
    by_cases hna : st.isAvailable = false
    · rw [if_pos hna]
    · rw [if_neg hna]
      show (match h call with
        | Except.error _ => none
        | Except.ok v => some v) = none
      rw [he]
  · intro hl
    unfold getOpenersForJob
    rw [hl]
    rfl
  · intro hall
    unfold getOpenerById
    rw [List.find?_eq_none]
    intro o ho
    simp only [beq_iff_eq]
    exact hall o ho

/-- Claim C9, witness: the standalone service state and a catalog miss on
an unknown job and an unknown opener id. -/
theorem host_unavailable_catalog_miss_safe_witness :
    addEventListener unavailableService "LogLine" 1 = (unavailableService, none)
    ∧ startEvents unavailableService true = none
    ∧ callHandler unavailableService
        (none : Option (String → Except String Nat)) "getCombatants" = none
    ∧ getOpenersForJob sampleCatalog "DRG" = []
    ∧ getOpenerById sampleCatalog "missing-id" = none := by
  obtain ⟨h1, h2, h3⟩ :=
    (host_unavailable_catalog_miss_safe unavailableService "LogLine" 1 true
      (none : Option (String → Except String Nat)) "getCombatants"
      sampleCatalog "DRG" "missing-id").1 rfl
  refine ⟨h1, h2, h3, ?_, ?_⟩
  · exact (host_unavailable_catalog_miss_safe unavailableService "LogLine" 1 true
      (none : Option (String → Except String Nat)) "getCombatants"
      sampleCatalog "DRG" "missing-id").2.2.2.1 (by decide)
  · exact (host_unavailable_catalog_miss_safe unavailableService "LogLine" 1 true
      (none : Option (String → Except String Nat)) "getCombatants"
      sampleCatalog "DRG" "missing-id").2.2.2.2 (by decide)

